import Mathlib

/-!
Verification development for the PiTrac launch-monitor core
(`Software/LMSourceCode/ImageProcessing`).

The C++ sources are shallowly embedded: machine floats become exact
rationals (`ℚ`), byte buffers become `List UInt8` or index functions,
`std::map` becomes either an association list or a lookup function, and
the third-party libraries (OpenCV, msgpack, ZeroMQ, OpenSSL, boost) are
modelled at their interface: msgpack's byte encoding is abstracted as the
record it encodes, SHA-256 is an abstract digest parameter, and sockets
become explicit traces.  Where a helper lives in a header that is not part
of the examined sources, its model carries a doc comment saying so.
-/

namespace PiTrac

/-! ## Detector data model (`onnx_runtime_detector.cpp`) -/

/-- Axis-aligned bounding box, mirroring `cv::Rect2f bbox` with exact
rational coordinates in place of `float`. -/
structure Rect where
  x : ℚ
  y : ℚ
  width : ℚ
  height : ℚ
  deriving DecidableEq, Repr

/-- One detection, mirroring `ONNXRuntimeDetector::Detection`
(`bbox`, `confidence`, `class_id`). -/
structure Detection where
  bbox : Rect
  confidence : ℚ
  class_id : ℕ
  deriving DecidableEq, Repr

/-- Modelled from the spec: the `IOU` helper is declared in
`onnx_runtime_detector.hpp`, which is not among the examined sources; the
spec's glossary defines it as intersection-over-union of two axis-aligned
boxes.  Rational division is total (`x / 0 = 0`), matching the degenerate
zero-area case harmlessly. -/
def IOU (a b : Rect) : ℚ :=
  let x1 := max a.x b.x
  let y1 := max a.y b.y
  let x2 := min (a.x + a.width) (b.x + b.width)
  let y2 := min (a.y + a.height) (b.y + b.height)
  let inter := max 0 (x2 - x1) * max 0 (y2 - y1)
  let union := a.width * a.height + b.width * b.height - inter
  inter / union

/-- One iteration of the kept/suppressed bookkeeping of
`ONNXRuntimeDetector::NonMaxSuppression`: a candidate `d` (taken in sorted
order) is dropped exactly when some already-kept detection of the same
class overlaps it with IoU strictly above the threshold, and is appended
to the kept list otherwise.  This is the code's suppressed-flag loop in
accumulator form: only kept detections (`result`) ever set a `suppressed`
flag there, and a flag is set for `j` precisely when a kept earlier `i`
has `class_id` equal and `IOU > nms_threshold`. -/
def nmsStep (thr : ℚ) (kept : List Detection) (d : Detection) : List Detection :=
  if kept.any (fun k => k.class_id == d.class_id && decide (thr < IOU k.bbox d.bbox))
  then kept
  else kept ++ [d]

/-- The suppression pass of `NonMaxSuppression`, run over the
confidence-sorted candidate list. -/
def nmsFold (thr : ℚ) (l : List Detection) : List Detection :=
  l.foldl (nmsStep thr) []

/-- The sortedness guarantee `std::sort` gives with the comparator
`a.confidence > b.confidence`: the list is non-increasing in confidence.
Nothing more is guaranteed for ties, since `std::sort` is not stable. -/
def SortedDesc (l : List Detection) : Prop :=
  l.Pairwise (fun a b => b.confidence ≤ a.confidence)

/-- `NonMaxSuppression detections`: the code first sorts by descending
confidence with the unstable `std::sort` and then runs the suppression
pass; any comparator-consistent permutation is a possible iteration
order, so the function is modelled as a relation between input and
output. -/
def NonMaxSuppressionRel (thr : ℚ) (dets out : List Detection) : Prop :=
  ∃ sorted, sorted.Perm dets ∧ SortedDesc sorted ∧ out = nmsFold thr sorted

/-! ## Detector performance counters (`ONNXRuntimeDetector::Detect`) -/

/-- The inputs that decide one `Detect` call's control flow and metric
update: the early-return guards (`image.empty()`, `image.channels() != 3`,
`!session_`, and — folded into `outputOk` — a null input buffer or an
empty/null/invalid output tensor) plus the measured inference time and
whether the caller passed a `metrics` pointer. -/
structure DetectInput where
  imageEmpty : Bool
  channels : ℕ
  sessionOk : Bool
  outputOk : Bool
  inferenceMs : ℚ
  withMetrics : Bool
  deriving DecidableEq, Repr

/-- A `Detect` call runs to the counter-update code only when every
early-return guard passes. -/
def detectReachesEnd (d : DetectInput) : Bool :=
  !d.imageEmpty && d.channels == 3 && d.sessionOk && d.outputOk

/-- `current_time = metrics ? metrics->inference_ms : 0` in `Detect`. -/
def recordedTime (d : DetectInput) : ℚ :=
  if d.withMetrics then d.inferenceMs else 0

/-- The two process-local counters `total_inferences_` and
`avg_inference_time_ms_`. -/
structure DetectorStats where
  total_inferences : ℕ
  avg_inference_time_ms : ℚ
  deriving DecidableEq, Repr

/-- Modelled from the spec: the counters' initial values live in
`onnx_runtime_detector.hpp`, which is not among the examined sources;
zero-initialisation is the only reading consistent with §4.5's running
mean. -/
def initialStats : DetectorStats := ⟨0, 0⟩

/-- The effect of one `Detect` call on the two counters: on any early
return the counters are untouched; otherwise
`total_inferences_++` and
`avg = (prev_avg * (total_inferences_ - 1) + current_time) / total_inferences_`. -/
def detectUpdate (s : DetectorStats) (d : DetectInput) : DetectorStats :=
  if detectReachesEnd d then
    let n := s.total_inferences + 1
    { total_inferences := n
      avg_inference_time_ms :=
        (s.avg_inference_time_ms * ((n : ℚ) - 1) + recordedTime d) / (n : ℚ) }
  else s

/-! ## Preprocessing (`PreprocessImageStandard` and
`neon::PreprocessPipelineNEON`)

Both paths first call `cv::resize(image, resized, Size(W,H), INTER_LINEAR)`
with identical arguments, so the shared resized frame is the model's input:
`resized : ℕ → ℕ` is its interleaved BGR byte buffer (byte index ↦ value,
so pixel `j` has B, G, R at `3*j`, `3*j+1`, `3*j+2`).  The output tensor is
a partial-write buffer modelled as a function `ℕ → ℚ` starting from an
arbitrary initial content `out0`; each C++ store becomes an `updOut`. -/

/-- A single store `output[k] = v` into the float tensor. -/
def updOut (out : ℕ → ℚ) (k : ℕ) (v : ℚ) : ℕ → ℚ :=
  fun i => if i = k then v else out i

/-- `PreprocessImageStandard` after the shared resize: `convertTo(CV_32F,
1/255)` followed by the three nested loops
`output[c*H*W + h*W + w] = float_img[h*W*3 + w*3 + c]`. -/
def preprocessImageStandard (resized : ℕ → ℕ) (W H : ℕ) (out0 : ℕ → ℚ) : ℕ → ℚ :=
  (List.range 3).foldl (fun out c =>
    (List.range H).foldl (fun out h =>
      (List.range W).foldl (fun out w =>
        updOut out (c * H * W + h * W + w)
          ((resized (h * W * 3 + w * 3 + c) : ℚ) / 255)) out) out) out0

/-- The NEON vector branch body for a 4-block starting at pixel `i`
(taken when `remaining_pixels == 4 && (i + 3) < pixels`): it loads 8 bytes
at `i*3`, so `bgr_f32_low` holds pixel `i`'s B,G,R and pixel `i+1`'s B,
and — guarded by `(i+3)*3 < pixels*3` and `i < pixels` — stores only the
three planes of pixel `i` (lane 2 = R, lane 1 = G, lane 0 = B).  Pixels
`i+1 .. i+3` of the block are not written. -/
def neonVectorBody (resized : ℕ → ℕ) (p i : ℕ) (out : ℕ → ℚ) : ℕ → ℚ :=
  if (i + 3) * 3 < p * 3 then
    if i < p then
      updOut (updOut (updOut out
        (0 * p + i) ((resized (i * 3 + 2) : ℚ) / 255))
        (1 * p + i) ((resized (i * 3 + 1) : ℚ) / 255))
        (2 * p + i) ((resized (i * 3) : ℚ) / 255)
    else out
  else out

/-- The NEON scalar tail for the `< 4` remaining pixels: for each `j`
with `j < remaining_pixels` and `i + j < pixels` it stores R, G, B of
pixel `i+j` into planes 0, 1, 2. -/
def neonScalarBody (resized : ℕ → ℕ) (p i rem : ℕ) (out : ℕ → ℚ) : ℕ → ℚ :=
  (List.range rem).foldl (fun out j =>
    if i + j < p then
      updOut (updOut (updOut out
        (0 * p + i + j) ((resized ((i + j) * 3 + 2) : ℚ) / 255))
        (1 * p + i + j) ((resized ((i + j) * 3 + 1) : ℚ) / 255))
        (2 * p + i + j) ((resized ((i + j) * 3) : ℚ) / 255)
    else out) out

/-- The inner `for (int i = block; i < end; i += 4)` loop of
`PreprocessPipelineNEON`. -/
def neonInner (resized : ℕ → ℕ) (p e : ℕ) (i : ℕ) (out : ℕ → ℚ) : ℕ → ℚ :=
  if i < e then
    let rem := min 4 (e - i)
    let out' := if rem = 4 ∧ i + 3 < p then neonVectorBody resized p i out
                else neonScalarBody resized p i rem out
    neonInner resized p e (i + 4) out'
  else out
termination_by e - i
decreasing_by simp_wf; omega

/-- The outer `for (int block = 0; block < pixels; block += block_size)`
loop (`block_size = 64`). -/
def neonBlocks (resized : ℕ → ℕ) (p : ℕ) (block : ℕ) (out : ℕ → ℚ) : ℕ → ℚ :=
  if block < p then
    neonBlocks resized p (block + 64) (neonInner resized p (min (block + 64) p) block out)
  else out
termination_by p - block
decreasing_by simp_wf; omega

/-- `neon::PreprocessPipelineNEON` after the shared resize, over the
`pixels = target_width * target_height` flattened pixels. -/
def preprocessPipelineNEON (resized : ℕ → ℕ) (W H : ℕ) (out0 : ℕ → ℚ) : ℕ → ℚ :=
  neonBlocks resized (W * H) 0 out0

/-! ## IPC data model (`gs_ipc_system.h` / `gs_ipc_system.cpp`) -/

/-- `cv::Mat::elemSize` for the packed OpenCV type code `t`:
`depth = t % 8`, `channels = t / 8 + 1`, element size =
channels × bytes-per-depth (8U/8S→1, 16U/16S/16F→2, 32S/32F→4, 64F→8). -/
def elemSize (t : ℕ) : ℕ :=
  (t / 8 + 1) * ([1, 1, 2, 2, 4, 4, 8, 2].getD (t % 8) 1)

/-- A continuous `cv::Mat` frame: dimensions, packed type code, and its
`total() * elemSize()`-byte data buffer. -/
structure FrameMat where
  rows : ℕ
  cols : ℕ
  mtype : ℕ
  bytes : List UInt8
  deriving DecidableEq, Repr

/-- `GolfSimIPCMessage::IPCMessageType` underlying integers.  Modelled from
the spec: `gs_ipc_message.h` is not among the examined sources; §6 fixes
the stable ids in the order Unknown, CameraImage, CameraPreImage,
Shutdown, RequestForCameraImage, Results, ControlMessage. -/
def kUnknown : ℤ := 0

/-- `IPCMessageType::kCamera2Image` (spec §6: `CameraImage`). -/
def kCamera2Image : ℤ := 1

/-- `IPCMessageType::kCamera2ReturnPreImage` (spec §6: `CameraPreImage`). -/
def kCamera2ReturnPreImage : ℤ := 2

/-- `IPCMessageType::kShutdown`. -/
def kShutdown : ℤ := 3

/-- `IPCMessageType::kRequestForCamera2Image`. -/
def kRequestForCamera2Image : ℤ := 4

/-- `IPCMessageType::kResults`. -/
def kResults : ℤ := 5

/-- `IPCMessageType::kControlMessage`. -/
def kControlMessage : ℤ := 6

/-- Modelled from the spec: `GolfSimIPCMessage` (from the missing
`gs_ipc_message.h`) carries its type, and — per §4.7 — an image payload
for the camera-image variants (`SetImageMat`/`GetImageMat` access it) and
a control code for `Control`.  The type is kept as the enum's underlying
integer so that `static_cast` round-trips are literal. -/
structure GolfSimIPCMessage where
  messageType : ℤ
  image : FrameMat := ⟨0, 0, 0, []⟩
  control_type : ℤ := 0
  deriving DecidableEq, Repr

/-- The header map of a ZeroMQ frame, `std::map<std::string,std::string>`
viewed through lookup. -/
def PropMap := String → Option String

/-- `properties[key] = value`. -/
def setProp (m : PropMap) (k v : String) : PropMap :=
  fun q => if q = k then some v else m q

/-- `ZeroMQMessageHeader`. -/
structure ZeroMQMessageHeader where
  message_type : ℤ
  timestamp_ms : ℤ
  system_id : String
  deriving DecidableEq, Repr

/-- `ZeroMQImageMessage`. -/
structure ZeroMQImageMessage where
  header : ZeroMQMessageHeader
  image_data : List UInt8
  image_rows : ℕ
  image_cols : ℕ
  image_type : ℕ
  deriving DecidableEq, Repr

/-- `ZeroMQControlMessage`. -/
structure ZeroMQControlMessage where
  header : ZeroMQMessageHeader
  control_type : ℤ
  deriving DecidableEq, Repr

/-- `ZeroMQResultMessage`. -/
structure ZeroMQResultMessage where
  header : ZeroMQMessageHeader
  result_data : List (String × String)
  deriving DecidableEq, Repr

/-- `ZeroMQSimpleMessage`. -/
structure ZeroMQSimpleMessage where
  header : ZeroMQMessageHeader
  deriving DecidableEq, Repr

/-- A msgpack payload.  The byte-level encoding is msgpack's (a third
party library whose pack/unpack are inverse); the model keeps the encoded
record itself, and `msgpack::unpack`+`convert` to the wrong record type —
which throws in C++ — is a mismatched constructor here. -/
inductive WirePayload where
  | image (m : ZeroMQImageMessage)
  | control (m : ZeroMQControlMessage)
  | result (m : ZeroMQResultMessage)
  | simple (m : ZeroMQSimpleMessage)
  deriving DecidableEq, Repr

/-- `GolfSimIpcSystem::GetTopicForMessageType`. -/
def getTopicForMessageType (t : ℤ) : String :=
  if t = kResults then "Golf.Sim.Results"
  else if t = kControlMessage then "Golf.Sim.Control"
  else "Golf.Sim.Message"

/-- `GolfSimIpcSystem::SerializeIpcMessageToZeroMQ`.  `system_id_` and the
wall clock are explicit arguments; the function fills topic, payload and
properties exactly as the code does (System_ID, Message_Type and
Timestamp keys, then the typed body; the image body copies
`total()*elemSize()` bytes of the frame). -/
def serializeIpcMessageToZeroMQ (systemId : String) (now : ℤ)
    (msg : GolfSimIPCMessage) (props0 : PropMap) :
    String × WirePayload × PropMap :=
  let topic := getTopicForMessageType msg.messageType
  let props := setProp (setProp (setProp props0
    "System_ID" systemId)
    "Message_Type" (toString msg.messageType))
    "Timestamp" (toString now)
  let header : ZeroMQMessageHeader := ⟨msg.messageType, now, systemId⟩
  let payload :=
    if msg.messageType = kCamera2Image ∨ msg.messageType = kCamera2ReturnPreImage then
      WirePayload.image
        { header := header
          image_data := msg.image.bytes.take (msg.image.rows * msg.image.cols * elemSize msg.image.mtype)
          image_rows := msg.image.rows
          image_cols := msg.image.cols
          image_type := msg.image.mtype }
    else if msg.messageType = kControlMessage then
      WirePayload.control { header := header, control_type := msg.control_type }
    else if msg.messageType = kResults then
      WirePayload.result { header := header, result_data := [("type", "results")] }
    else
      WirePayload.simple { header := header }
  (topic, payload, props)

/-- The digit run at the front of `l`, as a number; `none` when there is
no digit, modelling the `std::invalid_argument` that `stoi` throws. -/
def leadingDigitsVal (l : List Char) : Option ℕ :=
  let ds := l.takeWhile Char.isDigit
  if ds = [] then none
  else some (ds.foldl (fun n c => n * 10 + (c.toNat - 48)) 0)

/-- `std::stoi` on the `Message_Type` property: an optional minus sign
followed by a digit run (stoi's leading-whitespace and `+` tolerance
never arises on the `std::to_string` images this system writes); no
digit throws in C++ and is `none` here. -/
def stoiProp (s : String) : Option ℤ :=
  match s.data with
  | '-' :: rest => (leadingDigitsVal rest).map (fun n => -(n : ℤ))
  | l => (leadingDigitsVal l).map (fun n => (n : ℤ))

/-- `GolfSimIpcSystem::BuildIpcMessageFromZeroMQData`: reads
`Message_Type` from the properties (no key → null), `stoi`s it (throw →
null), refuses `kUnknown`, then unpacks the typed body for the image /
control / results variants; any msgpack conversion failure is caught and
yields null. -/
def buildIpcMessageFromZeroMQData (data : WirePayload) (props : PropMap) :
    Option GolfSimIPCMessage :=
  match props "Message_Type" with
  | none => none
  | some s =>
    match stoiProp s with
    | none => none
    | some t =>
      if t = kUnknown then none
      else if t = kCamera2Image ∨ t = kCamera2ReturnPreImage then
        match data with
        | WirePayload.image m =>
          some { messageType := t
                 image := ⟨m.image_rows, m.image_cols, m.image_type, m.image_data⟩ }
        | _ => none
      else if t = kControlMessage then
        match data with
        | WirePayload.control m =>
          some { messageType := t, control_type := m.control_type }
        | _ => none
      else if t = kResults then
        match data with
        | WirePayload.result _ => some { messageType := t }
        | _ => none
      else
        some { messageType := t }

/-! ## Dispatcher (`gs_ipc_system.cpp`) -/

/-- `SystemMode` values used by the dispatchers (declared in the missing
`gs_options.h`; the names below are exactly those the examined sources
use). -/
inductive SystemMode where
  | kCamera1
  | kCamera1TestStandalone
  | kCamera2
  | kCamera2TestStandalone
  | kRunCam2ProcessForPi1Processing
  | kCamera1AutoCalibrate
  | kCamera2AutoCalibrate
  | kCamera1BallLocation
  | kCamera2BallLocation
  | kTest
  deriving DecidableEq, Repr

/-- Events placed on the host event queue by the dispatchers. -/
inductive GsEvent where
  | exitEvent
  | controlMessage (code : ℤ)
  | camera2ImageReceived (f : FrameMat)
  | camera2PreImageReceived (f : FrameMat)
  | armCamera2MessageReceived
  deriving DecidableEq, Repr

/-- `DispatchShutdownMessage`: queue an `Exit` event. -/
def dispatchShutdownMessage (_msg : GolfSimIPCMessage) : Bool × List GsEvent :=
  (true, [GsEvent.exitEvent])

/-- `DispatchResultsMessage`: logging only. -/
def dispatchResultsMessage (_msg : GolfSimIPCMessage) : Bool × List GsEvent :=
  (true, [])

/-- `DispatchControlMsgMessage`: queue a control event with the code. -/
def dispatchControlMsgMessage (msg : GolfSimIPCMessage) : Bool × List GsEvent :=
  (true, [GsEvent.controlMessage msg.control_type])

/-- `DispatchRequestForCamera2ImageMessage` (mode switch). -/
def dispatchRequestForCamera2ImageMessage (mode : SystemMode)
    (_msg : GolfSimIPCMessage) : Bool × List GsEvent :=
  match mode with
  | SystemMode.kCamera1 => (true, [])
  | SystemMode.kCamera1TestStandalone => (true, [])
  | SystemMode.kCamera2 => (true, [GsEvent.armCamera2MessageReceived])
  | SystemMode.kCamera2TestStandalone => (true, [GsEvent.armCamera2MessageReceived])
  | SystemMode.kRunCam2ProcessForPi1Processing => (true, [GsEvent.armCamera2MessageReceived])
  | SystemMode.kCamera1AutoCalibrate => (true, [])
  | SystemMode.kCamera2AutoCalibrate => (true, [])
  | _ => (false, [])

/-- `DispatchCamera2ImageMessage` (still/auto-calibrate/locate modes save
the image; camera-1 roles queue a `Camera2ImageReceived` event). -/
def dispatchCamera2ImageMessage (mode : SystemMode) (cameraStillMode : Bool)
    (msg : GolfSimIPCMessage) : Bool × List GsEvent :=
  if cameraStillMode ∨ mode = SystemMode.kCamera1AutoCalibrate ∨
     mode = SystemMode.kCamera2AutoCalibrate ∨
     mode = SystemMode.kCamera1BallLocation ∨
     mode = SystemMode.kCamera2BallLocation then
    (true, [])
  else
    match mode with
    | SystemMode.kCamera2 => (true, [])
    | SystemMode.kCamera2TestStandalone => (true, [])
    | SystemMode.kCamera1TestStandalone => (true, [GsEvent.camera2ImageReceived msg.image])
    | SystemMode.kCamera1 => (true, [GsEvent.camera2ImageReceived msg.image])
    | _ => (false, [])

/-- `DispatchCamera2PreImageMessage`. -/
def dispatchCamera2PreImageMessage (mode : SystemMode)
    (msg : GolfSimIPCMessage) : Bool × List GsEvent :=
  match mode with
  | SystemMode.kCamera2 => (true, [])
  | SystemMode.kCamera2TestStandalone => (true, [])
  | SystemMode.kCamera1TestStandalone => (true, [GsEvent.camera2PreImageReceived msg.image])
  | SystemMode.kCamera1 => (true, [GsEvent.camera2PreImageReceived msg.image])
  | _ => (false, [])

/-- `GolfSimIpcSystem::DispatchReceivedIpcMessage`: rebuild the typed
message from the payload, then switch on its type; a failed rebuild, a
`kUnknown` type, or an out-of-range type dispatches nothing. -/
def dispatchReceivedIpcMessage (mode : SystemMode) (cameraStillMode : Bool)
    (data : WirePayload) (props : PropMap) : Bool × List GsEvent :=
  match buildIpcMessageFromZeroMQData data props with
  | none => (false, [])
  | some m =>
    if m.messageType = kUnknown then (false, [])
    else if m.messageType = kCamera2Image then
      dispatchCamera2ImageMessage mode cameraStillMode m
    else if m.messageType = kCamera2ReturnPreImage then
      dispatchCamera2PreImageMessage mode m
    else if m.messageType = kShutdown then dispatchShutdownMessage m
    else if m.messageType = kRequestForCamera2Image then
      dispatchRequestForCamera2ImageMessage mode m
    else if m.messageType = kResults then dispatchResultsMessage m
    else if m.messageType = kControlMessage then dispatchControlMsgMessage m
    else (false, [])

/-- `GolfSimIpcSystem::OnMessageReceived`: if the `System_ID` property is
present and equals this process's id the message is dropped (`none`:
no dispatch, no events); otherwise it is dispatched. -/
def onMessageReceived (systemId : String) (mode : SystemMode)
    (cameraStillMode : Bool) (_topic : String) (data : WirePayload)
    (props : PropMap) : Option (Bool × List GsEvent) :=
  match props "System_ID" with
  | some v =>
    if v = systemId then none
    else some (dispatchReceivedIpcMessage mode cameraStillMode data props)
  | none => some (dispatchReceivedIpcMessage mode cameraStillMode data props)

/-! ## Subscriber header parser (`ZeroMQSubscriber::ParseProperties`) -/

/-- The whitespace set of `find_first_not_of(" \t\n\r")`. -/
def wsTrimSet : List Char := [' ', '\t', '\n', '\r']

/-- `substr(start, end - start + 1)` with `start`/`end` the first/last
characters outside `wsTrimSet`: strip leading and trailing whitespace. -/
def trimWS (l : List Char) : List Char :=
  ((l.dropWhile (fun c => wsTrimSet.contains c)).reverse.dropWhile
    (fun c => wsTrimSet.contains c)).reverse

/-- `std::isspace` in the default locale. -/
def isSpaceChar (c : Char) : Bool :=
  [' ', '\t', '\n', '\x0b', '\x0c', '\r'].contains c

/-- `find('"', pos)`: split at the next double quote; `none` models
`npos` (unterminated string). -/
def splitAtQuote (l : List Char) : Option (List Char × List Char) :=
  match l.dropWhile (fun c => c ≠ '"') with
  | [] => none
  | _ :: tail => some (l.takeWhile (fun c => c ≠ '"'), tail)

/-- `properties[key] = value` on the association-list view of
`std::map`: overwrite the binding if present, insert otherwise. -/
def mapInsert (m : List (String × String)) (k v : String) :
    List (String × String) :=
  if m.any (fun p => p.1 == k) then
    m.map (fun p => if p.1 == k then (k, v) else p)
  else m ++ [(k, v)]

/-- The `while (pos < content.length())` key/value loop of
`ParseProperties`; every `break` returns the properties gathered so far.
`fuel` only bounds the iteration count: each C++ iteration consumes at
least the key's opening quote, so `fuel = content.length` never runs out
before the loop's own exit. -/
def parsePropsLoop : ℕ → List Char → List (String × String) → List (String × String)
  | 0, _, acc => acc
  | fuel + 1, l, acc =>
    match l.dropWhile isSpaceChar with
    | [] => acc
    | c :: rest =>
      if c ≠ '"' then acc
      else
        match splitAtQuote rest with
        | none => acc
        | some (key, rest1) =>
          match rest1.dropWhile (fun d => isSpaceChar d || d == ':') with
          | '"' :: rest3 =>
            match splitAtQuote rest3 with
            | none => acc
            | some (v, rest4) =>
              parsePropsLoop fuel (rest4.dropWhile (fun d => isSpaceChar d || d == ','))
                (mapInsert acc (String.mk key) (String.mk v))
          | _ => acc

/-- `ZeroMQSubscriber::ParseProperties`: empty input and all-whitespace
input give the empty map; a trimmed string that is not a braced object
(`size < 2`, or missing `{` / `}` delimiters) is rejected with the empty
map; `"{}"` is the empty map; otherwise the inner content is parsed
key/value-wise. -/
def parseProperties (json : List Char) : List (String × String) :=
  if json = [] then []
  else
    let t := trimWS json
    if t = [] then []
    else if t.length < 2 ∨ t.head? ≠ some '{' ∨ t.getLast? ≠ some '}' then []
    else if t = ['{', '}'] then []
    else parsePropsLoop json.length ((t.drop 1).dropLast) []

/-- `std::map::find` on the parsed properties. -/
def propsFind (l : List (String × String)) (k : String) : Option String :=
  (l.find? (fun p => p.1 == k)).map (fun p => p.2)

/-- One delivery decision of `ZeroMQSubscriber::SubscriberThread` after
the three frames of a message have been received: parse the header
frame, and if an exclusion id is set and the message's `System_ID`
matches it, skip the handler (`none`); otherwise hand
`(topic, data, properties)` to the handler. -/
def subscriberProcessMessage (excludeId : String) (topicStr : String)
    (propsStr : List Char) (data : List UInt8) :
    Option (String × List UInt8 × List (String × String)) :=
  let properties := parseProperties propsStr
  if excludeId ≠ "" ∧ propsFind properties "System_ID" = some excludeId then none
  else some (topicStr, data, properties)

/-! ## Publisher send queue (`zeromq_publisher.cpp`) -/

/-- An element of the publisher's internal `message_queue_`. -/
structure PubMessage where
  topic : String
  data : List UInt8
  properties : List (String × String)
  deriving DecidableEq, Repr

/-- `ZeroMQPublisher::SendMessage`: refuse when not running, otherwise
enqueue and report success — the message is only queued, not yet on the
socket. -/
def pubSendMessage (running : Bool) (q : List PubMessage) (m : PubMessage) :
    Bool × List PubMessage :=
  if running then (true, q ++ [m]) else (false, q)

/-- The publisher thread's inner drain loop
`while (!message_queue_.empty() && !should_stop_.load())`: `stopAt k` is
the value `should_stop_` reads on the loop's `k`-th iteration; the loop
transmits the front message and continues while the flag stays false,
and exits — transmitting nothing further — as soon as it reads true.
The outer thread loop also checks the same flag, so nothing is sent
after the inner loop exits on stop. -/
def drainQueue (stopAt : ℕ → Bool) : List PubMessage → ℕ → List PubMessage
  | [], _ => []
  | m :: rest, k => if stopAt k then [] else m :: drainQueue stopAt rest (k + 1)

/-! ## Simulator protocol responder (`gs_e6_response.cpp`)

Incoming messages are modelled after boost's `read_json` as the flat
key/value tree they parse to; the SHA-256 primitive (OpenSSL, a third
party) is an abstract digest argument returning the 32 hash bytes. -/

/-- A parsed (flat) `boost::property_tree::ptree`. -/
def Ptree := List (String × String)

/-- `pt.get<std::string>(key, default)`. -/
def ptGet (pt : Ptree) (k dflt : String) : String :=
  match (List.find? (fun p => p.1 == k) pt) with
  | some p => p.2
  | none => dflt

/-- `GsE6Response::GetKey()` (the deobfuscated test/developer secret
key literal). -/
def e6SecretKey : String := "kIvRILMEqHaPPylcAoOWsjKxhTRbxqWURg5iD0Nbilmt7KZ8"

/-- `GsE6Response::GetID()` (the deobfuscated test/developer id
literal). -/
def e6DeveloperId : String := "3A1D3CBD-9FAB-4328-91E6-C97F7FC29DC2"

/-- One lowercase hex digit: `0`-`9` then `a`-`f`, as `%x` renders it. -/
def hexDigit (n : ℕ) : Char :=
  if n < 10 then Char.ofNat (48 + n) else Char.ofNat (87 + n)

/-- `sprintf(buffer, "%02x", hash[i])`: two lowercase hex digits of one
digest byte. -/
def hexByte (b : ℕ) : String :=
  String.mk [hexDigit (b / 16 % 16), hexDigit (b % 16)]

/-- `GsE6Response::GenerateSHA256String`, with the OpenSSL digest
abstracted as `sha`: concatenate `%02x` renderings of the digest bytes. -/
def generateSHA256String (sha : String → List ℕ) (s : String) : String :=
  String.join ((sha s).map hexByte)

/-- Modelled from the spec: `GsResults::GenerateStringFromJsonTree` lives
in `gs_e6_results.cpp`, which is not among the examined sources; §6 gives
the serialized form `{"key":"value",...}` of a flat tree. -/
def generateStringFromJsonTree (pt : Ptree) : String :=
  "\x7b" ++ String.intercalate ","
    (pt.map (fun p => "\"" ++ p.1 ++ "\":\"" ++ p.2 ++ "\"")) ++ "\x7d"

/-- `GsE6Response::ProcessChallenge`: read the `Challenge` field (empty
default), hash `challenge + GetKey()`, build the reply tree
`Type/Developer/Hash` in that order, serialize it; an empty serialization
would report failure.  Returns (status, `e6_response_string`). -/
def processChallenge (sha : String → List ℕ) (pt : Ptree) : Bool × String :=
  let challenge_from_e6 := ptGet pt "Challenge" ""
  let hash := generateSHA256String sha (challenge_from_e6 ++ e6SecretKey)
  let root : Ptree := [("Type", "Challenge"), ("Developer", e6DeveloperId), ("Hash", hash)]
  let e6_response_string := generateStringFromJsonTree root
  if e6_response_string = "" then (false, e6_response_string)
  else (true, e6_response_string)

/-- `GsE6Response::ProcessAuthentication` never assigns
`e6_response_string`. -/
def processAuthentication (pt : Ptree) : Bool × String :=
  (ptGet pt "Success" "" == "true", "")

/-- `GsE6Response::ProcessSimCommand` (response-string behaviour; the
club-change event queued for `PlayerDataModified` is outside this
model). -/
def processSimCommand (pt : Ptree) : Bool × String :=
  let subtype := ptGet pt "SubType" ""
  if subtype = "Ping" then (true, "\x7b\"Type\":\"Pong\"\x7d")
  else if subtype = "Arm" then (true, "")
  else if subtype = "Disarm" then (true, "")
  else if subtype = "EnvironmentDataModified" then (true, "")
  else if subtype = "PlayerDataModified" then (true, "")
  else (false, "")

/-- `GsE6Response::ProcessJson` on a successfully parsed message: missing
`Type` or an unknown `Type` fail; every recognized `Type` — including
`Handshake`, which the code routes through `ProcessChallenge` because
real traffic carries the challenge on the handshake frame — returns true
with whatever `e6_response_string` its handler produced (the handlers'
own status codes are discarded). -/
def processJson (sha : String → List ℕ) (pt : Ptree) : Bool × String :=
  let message_str := ptGet pt "Type" ""
  if message_str = "" then (false, "")
  else if message_str = "Handshake" then (true, (processChallenge sha pt).2)
  else if message_str = "Challenge" then (true, (processChallenge sha pt).2)
  else if message_str = "Authentication" then (true, (processAuthentication pt).2)
  else if message_str = "SimCommand" then (true, (processSimCommand pt).2)
  else if message_str = "ACK" then (true, "")
  else if message_str = "Warning" then (true, "")
  else if message_str = "ShotError" then (true, "")
  else if message_str = "ShotComplete" then (true, "")
  else (false, "")

/-- `SortedDesc` is decidable (it is a `Pairwise` over decidable
comparisons). -/
instance (l : List Detection) : Decidable (SortedDesc l) :=
  inferInstanceAs (Decidable (l.Pairwise (fun a b : Detection => b.confidence ≤ a.confidence)))

/-- Order preservation of equal-confidence candidates: whenever two
detections have equal confidence and the first precedes the second in
`input`, every occurrence of them in `l` keeps that relative order. -/
def PreservesTies (input l : List Detection) : Prop :=
  ∀ (i j : Fin input.length) (i2 j2 : Fin l.length),
    (i : ℕ) < (j : ℕ) →
    (input.get i).confidence = (input.get j).confidence →
    l.get i2 = input.get i → l.get j2 = input.get j →
    (i2 : ℕ) < (j2 : ℕ)

/-- `PreservesTies` is decidable (bounded quantifiers over indices). -/
instance (input l : List Detection) : Decidable (PreservesTies input l) :=
  inferInstanceAs (Decidable (∀ (i j : Fin input.length) (i2 j2 : Fin l.length),
    (i : ℕ) < (j : ℕ) →
    (input.get i).confidence = (input.get j).confidence →
    l.get i2 = input.get i → l.get j2 = input.get j →
    (i2 : ℕ) < (j2 : ℕ)))

/-! ## Theorems -/

/-- C9: for every header-frame string whose whitespace-trimmed content
does not both begin with `{` and end with `}`, `ParseProperties` returns
the empty map (the input is rejected without failing the message). -/
theorem C9_parse_properties_rejects_unbraced (s : List Char)
    (h : ¬((trimWS s).head? = some '{' ∧ (trimWS s).getLast? = some '}')) :
    parseProperties s = [] := by
  unfold parseProperties
  by_cases hs : s = []
  · simp [hs]
  · rw [if_neg hs]
    by_cases ht : trimWS s = []
    · simp [ht]
    · rw [if_neg ht]
      rw [if_pos]
      rcases Decidable.em ((trimWS s).head? = some '{') with hh | hh
      · rcases Decidable.em ((trimWS s).getLast? = some '}') with hl | hl
        · exact absurd ⟨hh, hl⟩ h
        · exact Or.inr (Or.inr hl)
      · exact Or.inr (Or.inl hh)

/-- Witness for C9 at the concrete header frame `not json`. -/
theorem C9_parse_properties_rejects_unbraced_witness :
    (¬((trimWS "not json".toList).head? = some '{' ∧
        (trimWS "not json".toList).getLast? = some '}'))
    ∧ parseProperties "not json".toList = [] :=
  ⟨by decide, C9_parse_properties_rejects_unbraced "not json".toList (by decide)⟩

/-- C4: every serialized message's properties bind `System_ID` to the
sender's own system id, and a received message whose `System_ID` equals
the receiver's own id is dropped silently — `OnMessageReceived` neither
dispatches nor emits an event, and the subscriber loop's own exclusion
check already skips the handler. -/
theorem C4_system_id_bound_and_self_dropped :
    (∀ (systemId : String) (now : ℤ) (msg : GolfSimIPCMessage) (props0 : PropMap),
      (serializeIpcMessageToZeroMQ systemId now msg props0).2.2 "System_ID" = some systemId)
    ∧ (∀ (systemId : String) (mode : SystemMode) (still : Bool) (topic : String)
        (data : WirePayload) (props : PropMap),
        props "System_ID" = some systemId →
        onMessageReceived systemId mode still topic data props = none)
    ∧ (∀ (excludeId topicStr : String) (propsStr : List Char) (data : List UInt8),
        excludeId ≠ "" →
        propsFind (parseProperties propsStr) "System_ID" = some excludeId →
        subscriberProcessMessage excludeId topicStr propsStr data = none) := by
  refine ⟨?_, ?_, ?_⟩
  · intro systemId now msg props0
    simp [serializeIpcMessageToZeroMQ, setProp]
  · intro systemId mode still topic data props h
    simp [onMessageReceived, h]
  · intro excludeId topicStr propsStr data hne hfind
    simp [subscriberProcessMessage, hne, hfind]

/-- Witness for C4 at concrete inputs: a shutdown message serialized by
system `X`, and a received header naming `X` at a subscriber/dispatcher
whose own id is `X`. -/
theorem C4_system_id_bound_and_self_dropped_witness :
    ((serializeIpcMessageToZeroMQ "X" 5 { messageType := kShutdown }
        (fun _ => none)).2.2 "System_ID" = some "X")
    ∧ ((fun q => if q = "System_ID" then some "X" else none) "System_ID" = some "X"
        ∧ onMessageReceived "X" SystemMode.kCamera1 false "Golf.Sim.Message"
            (WirePayload.simple ⟨⟨3, 5, "X"⟩⟩)
            (fun q => if q = "System_ID" then some "X" else none) = none)
    ∧ (("X" : String) ≠ ""
        ∧ propsFind (parseProperties ['{', '"', 'S', 'y', 's', 't', 'e', 'm', '_',
            'I', 'D', '"', ':', '"', 'X', '"', '}']) "System_ID" = some "X"
        ∧ subscriberProcessMessage "X" "Golf.Sim.Message"
            ['{', '"', 'S', 'y', 's', 't', 'e', 'm', '_', 'I', 'D', '"', ':', '"',
             'X', '"', '}'] [] = none) :=
  ⟨C4_system_id_bound_and_self_dropped.1 "X" 5 { messageType := kShutdown } (fun _ => none),
   ⟨rfl, C4_system_id_bound_and_self_dropped.2.1 "X" SystemMode.kCamera1 false
      "Golf.Sim.Message" (WirePayload.simple ⟨⟨3, 5, "X"⟩⟩) _ rfl⟩,
   ⟨by decide, by decide,
    C4_system_id_bound_and_self_dropped.2.2 "X" "Golf.Sim.Message" _ [] (by decide) (by decide)⟩⟩

/-- C5: serializing a camera-image message and rebuilding it from the
resulting payload and properties reconstructs a frame equal to the
source byte-for-byte: same rows, same cols, same pixel type, identical
pixel bytes.  The frame must be the continuous `total()*elemSize()`
buffer the `memcpy` assumes. -/
theorem C5_camera_image_roundtrip (systemId : String) (now : ℤ)
    (msg : GolfSimIPCMessage) (props0 : PropMap)
    (htype : msg.messageType = kCamera2Image ∨ msg.messageType = kCamera2ReturnPreImage)
    (hlen : msg.image.bytes.length = msg.image.rows * msg.image.cols * elemSize msg.image.mtype) :
    ∃ rebuilt,
      buildIpcMessageFromZeroMQData
        (serializeIpcMessageToZeroMQ systemId now msg props0).2.1
        (serializeIpcMessageToZeroMQ systemId now msg props0).2.2 = some rebuilt
      ∧ rebuilt.image.rows = msg.image.rows
      ∧ rebuilt.image.cols = msg.image.cols
      ∧ rebuilt.image.mtype = msg.image.mtype
      ∧ rebuilt.image.bytes = msg.image.bytes := by
  have htake : msg.image.bytes.take
      (msg.image.rows * msg.image.cols * elemSize msg.image.mtype) = msg.image.bytes := by
    rw [← hlen]; exact List.take_length msg.image.bytes
  have hp1 : stoiProp (toString (1 : ℤ)) = some 1 := by decide
  have hp2 : stoiProp (toString (2 : ℤ)) = some 2 := by decide
  rcases htype with h | h
  · refine ⟨{ messageType := kCamera2Image,
              image := ⟨msg.image.rows, msg.image.cols, msg.image.mtype, msg.image.bytes⟩ },
      ?_, rfl, rfl, rfl, rfl⟩
    simp [serializeIpcMessageToZeroMQ, buildIpcMessageFromZeroMQData, setProp, h, htake,
      hp1, kCamera2Image, kCamera2ReturnPreImage, kUnknown]
  · refine ⟨{ messageType := kCamera2ReturnPreImage,
              image := ⟨msg.image.rows, msg.image.cols, msg.image.mtype, msg.image.bytes⟩ },
      ?_, rfl, rfl, rfl, rfl⟩
    simp [serializeIpcMessageToZeroMQ, buildIpcMessageFromZeroMQData, setProp, h, htake,
      hp2, kCamera2Image, kCamera2ReturnPreImage, kUnknown]

/-- Witness for C5: a 1×1 `CV_8UC3` frame (type code 16, three bytes)
round-trips byte-for-byte. -/
theorem C5_camera_image_roundtrip_witness :
    ((kCamera2Image = kCamera2Image ∨ kCamera2Image = kCamera2ReturnPreImage)
      ∧ ([7, 8, 9] : List UInt8).length = 1 * 1 * elemSize 16)
    ∧ ∃ rebuilt,
        buildIpcMessageFromZeroMQData
          (serializeIpcMessageToZeroMQ "X" 44
            { messageType := kCamera2Image, image := ⟨1, 1, 16, [7, 8, 9]⟩ }
            (fun _ => none)).2.1
          (serializeIpcMessageToZeroMQ "X" 44
            { messageType := kCamera2Image, image := ⟨1, 1, 16, [7, 8, 9]⟩ }
            (fun _ => none)).2.2 = some rebuilt
        ∧ rebuilt.image.rows = 1 ∧ rebuilt.image.cols = 1
        ∧ rebuilt.image.mtype = 16 ∧ rebuilt.image.bytes = ([7, 8, 9] : List UInt8) :=
  ⟨⟨Or.inl rfl, by decide⟩,
   C5_camera_image_roundtrip "X" 44
     { messageType := kCamera2Image, image := ⟨1, 1, 16, [7, 8, 9]⟩ }
     (fun _ => none) (Or.inl rfl) (by decide)⟩

/-- The spec-modelled JSON serializer never yields the empty string. -/
theorem generateStringFromJsonTree_ne_empty (pt : Ptree) :
    generateStringFromJsonTree pt ≠ "" := by
  intro h
  have hlen := congrArg String.length h
  rw [generateStringFromJsonTree] at hlen
  simp only [String.length_append] at hlen
  have h1 : ("\x7b" : String).length = 1 := rfl
  have h2 : ("\x7d" : String).length = 1 := rfl
  have h0 : ("" : String).length = 0 := rfl
  rw [h1, h2, h0] at hlen
  omega

/-- C6: a message whose `Type` is `Challenge`, or whose `Type` is
`Handshake` and which carries a `Challenge` field, is answered with
`{"Type":"Challenge","Developer":<developer id>,"Hash":h}` where `h` is
the lowercase-hex rendering of the SHA-256 digest of the challenge
string concatenated with the secret key. -/
theorem C6_challenge_reply (sha : String → List ℕ) (pt : Ptree)
    (h : ptGet pt "Type" "" = "Challenge"
      ∨ (ptGet pt "Type" "" = "Handshake"
          ∧ (List.find? (fun p => p.1 == "Challenge") pt).isSome)) :
    processJson sha pt =
      (true, generateStringFromJsonTree
        [("Type", "Challenge"), ("Developer", e6DeveloperId),
         ("Hash", generateSHA256String sha (ptGet pt "Challenge" "" ++ e6SecretKey))]) := by
  have hresp := generateStringFromJsonTree_ne_empty
    [("Type", "Challenge"), ("Developer", e6DeveloperId),
     ("Hash", generateSHA256String sha (ptGet pt "Challenge" "" ++ e6SecretKey))]
  rcases h with h | ⟨h, _⟩
  · rw [processJson, h]
    simp [processChallenge, hresp]
  · rw [processJson, h]
    simp [processChallenge, hresp]

/-- Witness for C6: the literal handshake payload
`{"Type":"Handshake","Challenge":"abc"}` under a fixed digest. -/
theorem C6_challenge_reply_witness :
    ((ptGet [("Type", "Handshake"), ("Challenge", "abc")] "Type" "" = "Challenge"
      ∨ (ptGet [("Type", "Handshake"), ("Challenge", "abc")] "Type" "" = "Handshake"
          ∧ (List.find? (fun p => p.1 == "Challenge")
              [("Type", "Handshake"), ("Challenge", "abc")]).isSome))
    ∧ processJson (fun _ => List.replicate 32 0)
        [("Type", "Handshake"), ("Challenge", "abc")] =
      (true, generateStringFromJsonTree
        [("Type", "Challenge"), ("Developer", e6DeveloperId),
         ("Hash", generateSHA256String (fun _ => List.replicate 32 0)
            (ptGet [("Type", "Handshake"), ("Challenge", "abc")] "Challenge" ""
              ++ e6SecretKey))])) :=
  ⟨Or.inr ⟨by decide, by decide⟩,
   C6_challenge_reply (fun _ => List.replicate 32 0)
     [("Type", "Handshake"), ("Challenge", "abc")] (Or.inr ⟨by decide, by decide⟩)⟩

/-- C7 counterexample: a `Detect` call on an empty image returns early,
so the total-inference counter does not increase — the claim's "after
every call" fails. -/
theorem C7_counter_not_incremented_on_failed_call :
    (detectUpdate initialStats ⟨true, 3, true, true, 5, true⟩).total_inferences
      ≠ initialStats.total_inferences + 1 := by decide

/-- C7 (amended): after every `Detect` call that passes all early-return
guards, the counter increases by exactly one, and across any such
sequence of calls the maintained running mean equals the plain
arithmetic mean of the recorded per-call inference times (the inference
time when a metrics struct was passed, `0` otherwise). -/
theorem C7_stats_running_mean_amended :
    (∀ (s : DetectorStats) (d : DetectInput), detectReachesEnd d = true →
      (detectUpdate s d).total_inferences = s.total_inferences + 1)
    ∧ ∀ calls : List DetectInput, (∀ d ∈ calls, detectReachesEnd d = true) →
        (calls.foldl detectUpdate initialStats).total_inferences = calls.length
        ∧ (calls.foldl detectUpdate initialStats).avg_inference_time_ms
            = (calls.map recordedTime).sum / (calls.length : ℚ) := by
  constructor
  · intro s d hd
    simp [detectUpdate, hd]
  · intro calls hall
    induction calls using List.reverseRecOn with
    | nil => simp [initialStats]
    | append_singleton l d ih =>
      have hd : detectReachesEnd d = true := hall d (by simp)
      have hl : ∀ e ∈ l, detectReachesEnd e = true := fun e he => hall e (by simp [he])
      obtain ⟨iht, iha⟩ := ih hl
      rw [List.foldl_append]
      simp only [List.foldl_cons, List.foldl_nil]
      constructor
      · rw [detectUpdate, if_pos hd, iht]
        simp
      · rw [detectUpdate, if_pos hd]
        simp only [iht, iha]
        rcases Nat.eq_zero_or_pos l.length with h0 | hpos
        · have : l = [] := List.length_eq_zero.mp h0
          subst this
          simp [recordedTime]
        · have hne : ((l.length : ℚ)) ≠ 0 :=
            Nat.cast_ne_zero.mpr (Nat.pos_iff_ne_zero.mp hpos)
          simp only [List.map_append, List.map_cons, List.map_nil, List.sum_append,
            List.sum_cons, List.sum_nil, List.length_append, List.length_cons,
            List.length_nil]
          push_cast
          field_simp

/-- Witness for C7 (amended): two successful calls recording 4 ms and
6 ms leave the counter at 2 and the running mean at 5 ms. -/
theorem C7_stats_running_mean_amended_witness :
    (∀ d ∈ [(⟨false, 3, true, true, 4, true⟩ : DetectInput),
            ⟨false, 3, true, true, 6, true⟩], detectReachesEnd d = true)
    ∧ ([(⟨false, 3, true, true, 4, true⟩ : DetectInput),
        ⟨false, 3, true, true, 6, true⟩].foldl detectUpdate initialStats).total_inferences
        = 2
    ∧ ([(⟨false, 3, true, true, 4, true⟩ : DetectInput),
        ⟨false, 3, true, true, 6, true⟩].foldl detectUpdate initialStats).avg_inference_time_ms
        = 5 := by
  refine ⟨by decide, ?_, ?_⟩
  · exact (C7_stats_running_mean_amended.2
      [⟨false, 3, true, true, 4, true⟩, ⟨false, 3, true, true, 6, true⟩] (by decide)).1
  · rw [(C7_stats_running_mean_amended.2
      [⟨false, 3, true, true, 4, true⟩, ⟨false, 3, true, true, 6, true⟩] (by decide)).2]
    norm_num [recordedTime]

/-- The publisher drain loop sends some initial segment of the queue:
there is a cut `j` with everything before it sent in order, the stop
flag read false on each of those iterations, and — when the queue was
not exhausted — read true exactly at the iteration that exits the
loop. -/
theorem drainQueue_take (stopAt : ℕ → Bool) :
    ∀ (q : List PubMessage) (s : ℕ),
      ∃ j, drainQueue stopAt q s = q.take j ∧ j ≤ q.length
        ∧ (∀ i < j, stopAt (s + i) = false)
        ∧ (j < q.length → stopAt (s + j) = true) := by
  intro q
  induction q with
  | nil => intro s; exact ⟨0, rfl, by simp, by omega, by simp⟩
  | cons m rest ih =>
    intro s
    by_cases hstop : stopAt s = true
    · exact ⟨0, by simp [drainQueue, hstop], by simp, by omega, fun _ => by simpa using hstop⟩
    · obtain ⟨j, hdrain, hle, hfalse, htrue⟩ := ih (s + 1)
      refine ⟨j + 1, ?_, by simpa using hle, ?_, ?_⟩
      · simp only [drainQueue, hstop, if_false, List.take_succ_cons, hdrain,
          Bool.not_eq_true] at *
        simp [drainQueue, hstop, hdrain]
      · intro i hi
        rcases Nat.eq_zero_or_pos i with rfl | hipos
        · simpa using Bool.not_eq_true (stopAt s) |>.mp hstop
        · have := hfalse (i - 1) (by omega)
          have harith : s + 1 + (i - 1) = s + i := by omega
          rwa [harith] at this
      · intro hlt
        have := htrue (by simpa using Nat.lt_of_succ_lt_succ (by simpa using hlt))
        have harith : s + 1 + j = s + (j + 1) := by omega
        rwa [harith] at this

/-- C10: `SendMessage` reports success for every enqueued message while
the publisher runs, yet if the stop flag is observed set at drain
iteration `k` (the flag, once set by `Stop()`, stays set), the drain
loop transmits at most the first `j ≤ k` queued messages and exits on
the iteration that reads the flag: every message still queued at that
moment is never transmitted. -/
theorem C10_stop_drops_queued_messages (stopAt : ℕ → Bool) (k : ℕ)
    (hk : stopAt k = true) :
    (∀ (q : List PubMessage) (m : PubMessage), pubSendMessage true q m = (true, q ++ [m]))
    ∧ ∀ q : List PubMessage, ∃ j, j ≤ k ∧ drainQueue stopAt q 0 = q.take j
        ∧ (j < q.length → stopAt j = true) := by
  constructor
  · intro q m
    simp [pubSendMessage]
  · intro q
    obtain ⟨j, hdrain, _, hfalse, htrue⟩ := drainQueue_take stopAt q 0
    refine ⟨j, ?_, hdrain, fun hlt => by simpa using htrue hlt⟩
    by_contra hgt
    have hkj : k < j := by omega
    have := hfalse k hkj
    rw [Nat.zero_add] at this
    rw [hk] at this
    cases this

/-- Witness for C10: with the stop flag set from iteration 1 on, a
three-message queue has only its head transmitted. -/
theorem C10_stop_drops_queued_messages_witness :
    (fun i => decide (1 ≤ i)) 1 = true
    ∧ ((∀ (q : List PubMessage) (m : PubMessage), pubSendMessage true q m = (true, q ++ [m]))
        ∧ ∀ q : List PubMessage, ∃ j, j ≤ 1
            ∧ drainQueue (fun i => decide (1 ≤ i)) q 0 = q.take j
            ∧ (j < q.length → (fun i => decide (1 ≤ i)) j = true)) :=
  ⟨by decide,
   C10_stop_drops_queued_messages (fun i => decide (1 ≤ i)) 1 (by decide)⟩

/-- Detections already kept stay kept through the rest of the
suppression pass. -/
theorem mem_nmsFoldl_of_mem_acc (thr : ℚ) (x : Detection) :
    ∀ (l acc : List Detection), x ∈ acc → x ∈ List.foldl (nmsStep thr) acc l := by
  intro l
  induction l with
  | nil => intro acc hx; simpa using hx
  | cons d rest ih =>
    intro acc hx
    simp only [List.foldl_cons]
    apply ih
    rw [nmsStep]
    by_cases hc : acc.any
        (fun k => k.class_id == d.class_id && decide (thr < IOU k.bbox d.bbox)) = true
    · rwa [if_pos hc]
    · rw [if_neg hc]
      exact List.mem_append_left _ hx

/-- Everything the suppression pass keeps came from the accumulator or
from the candidate list. -/
theorem mem_of_mem_nmsFoldl (thr : ℚ) (x : Detection) :
    ∀ (l acc : List Detection), x ∈ List.foldl (nmsStep thr) acc l → x ∈ acc ∨ x ∈ l := by
  intro l
  induction l with
  | nil => intro acc hx; exact Or.inl (by simpa using hx)
  | cons d rest ih =>
    intro acc hx
    simp only [List.foldl_cons] at hx
    rcases ih _ hx with hmem | hmem
    · rw [nmsStep] at hmem
      by_cases hc : acc.any
          (fun k => k.class_id == d.class_id && decide (thr < IOU k.bbox d.bbox)) = true
      · rw [if_pos hc] at hmem
        exact Or.inl hmem
      · rw [if_neg hc] at hmem
        rcases List.mem_append.mp hmem with h | h
        · exact Or.inl h
        · exact Or.inr (by rw [List.mem_singleton.mp h]; exact List.mem_cons_self d rest)
    · exact Or.inr (List.mem_cons_of_mem _ hmem)

/-- When the accumulator and the remaining candidates never share a
class, and the candidates are class-distinct among themselves, the
suppression pass keeps everything. -/
theorem nmsFoldl_all_kept_of_distinct_classes (thr : ℚ) :
    ∀ (l acc : List Detection),
      l.Nodup →
      (∀ a ∈ acc, ∀ b ∈ l, a.class_id ≠ b.class_id) →
      (∀ a ∈ l, ∀ b ∈ l, a ≠ b → a.class_id ≠ b.class_id) →
      List.foldl (nmsStep thr) acc l = acc ++ l := by
  intro l
  induction l with
  | nil => intro acc _ _ _; simp
  | cons d rest ih =>
    intro acc hnd hcross hwithin
    have hcond : acc.any
        (fun k => k.class_id == d.class_id && decide (thr < IOU k.bbox d.bbox)) = false := by
      rw [List.any_eq_false]
      intro k hk
      simp only [Bool.and_eq_true, beq_iff_eq, decide_eq_true_eq, not_and]
      intro hclass
      exact absurd hclass (hcross k hk d (List.mem_cons_self d rest))
    simp only [List.foldl_cons, nmsStep, hcond, Bool.false_eq_true, if_false]
    have hdnotin : d ∉ rest := (List.nodup_cons.mp hnd).1
    rw [ih (acc ++ [d]) (List.nodup_cons.mp hnd).2 ?_ ?_]
    · simp
    · intro a ha b hb
      rcases List.mem_append.mp ha with h | h
      · exact hcross a h b (List.mem_cons_of_mem _ hb)
      · have had : a = d := List.mem_singleton.mp h
        subst had
        exact hwithin a (List.mem_cons_self a rest) b (List.mem_cons_of_mem _ hb)
          (fun hab => hdnotin (hab ▸ hb))
    · intro a ha b hb hab
      exact hwithin a (List.mem_cons_of_mem _ ha) b (List.mem_cons_of_mem _ hb) hab

/-- C1: over any comparator-consistent iteration order of
`NonMaxSuppression`, a candidate is kept exactly when no previously kept
detection of the same class overlaps it with IoU strictly above the
threshold; and when no two candidates share a class, nothing is ever
suppressed, whatever the IoUs. -/
theorem C1_nms_keeps_iff_no_same_class_overlap (thr : ℚ)
    (dets sorted : List Detection)
    (hnd : dets.Nodup) (hperm : sorted.Perm dets) (hsorted : SortedDesc sorted) :
    (∀ (l1 l2 : List Detection) (d : Detection), sorted = l1 ++ d :: l2 →
      (d ∈ nmsFold thr sorted ↔
        ∀ k ∈ nmsFold thr l1, k.class_id = d.class_id → IOU k.bbox d.bbox ≤ thr))
    ∧ ((∀ a ∈ dets, ∀ b ∈ dets, a ≠ b → a.class_id ≠ b.class_id) →
        nmsFold thr sorted = sorted) := by
  have hndSorted : sorted.Nodup := (hperm.nodup_iff).mpr hnd
  constructor
  · intro l1 l2 d hsplit
    have hnds := hsplit ▸ hndSorted
    have hdisj := (List.nodup_append.mp hnds).2.2
    have hd1 : d ∉ l1 := fun hmem =>
      (List.disjoint_left.mp hdisj hmem) (List.mem_cons_self d l2)
    have hd2 : d ∉ l2 :=
      (List.nodup_cons.mp (List.nodup_append.mp hnds).2.1).1
    rw [hsplit, nmsFold, List.foldl_append, List.foldl_cons,
      show List.foldl (nmsStep thr) [] l1 = nmsFold thr l1 from rfl]
    by_cases hc : (nmsFold thr l1).any
        (fun k => k.class_id == d.class_id && decide (thr < IOU k.bbox d.bbox)) = true
    · obtain ⟨k, hkmem, hkprop⟩ := List.any_eq_true.mp hc
      simp only [Bool.and_eq_true, beq_iff_eq, decide_eq_true_eq] at hkprop
      rw [nmsStep, if_pos hc]
      constructor
      · intro hdmem
        rcases mem_of_mem_nmsFoldl thr d l2 _ hdmem with hmem | hmem
        · rcases mem_of_mem_nmsFoldl thr d l1 [] hmem with h | h
          · simp at h
          · exact absurd h hd1
        · exact absurd hmem hd2
      · intro hall
        exact absurd (hall k hkmem hkprop.1) (not_le.mpr hkprop.2)
    · have hc' : (nmsFold thr l1).any
          (fun k => k.class_id == d.class_id && decide (thr < IOU k.bbox d.bbox)) = false := by
        rwa [Bool.not_eq_true] at hc
      rw [nmsStep, if_neg hc]
      constructor
      · intro _ k hkmem hclass
        have hk := List.any_eq_false.mp hc' k hkmem
        simp only [Bool.and_eq_true, beq_iff_eq, decide_eq_true_eq, not_and] at hk
        exact not_lt.mp (hk hclass)
      · intro _
        exact mem_nmsFoldl_of_mem_acc thr d l2 _
          (List.mem_append_right _ (List.mem_singleton_self d))
  · intro hdistinct
    have hsd : ∀ a ∈ sorted, ∀ b ∈ sorted, a ≠ b → a.class_id ≠ b.class_id := by
      intro a ha b hb
      exact hdistinct a (hperm.mem_iff.mp ha) b (hperm.mem_iff.mp hb)
    rw [nmsFold, nmsFoldl_all_kept_of_distinct_classes thr sorted [] hndSorted
      (by intro a ha; simp at ha) hsd]
    simp
/-- Witness for C1: two same-class detections on the same box, sorted by
their distinct confidences. -/
theorem C1_nms_keeps_iff_no_same_class_overlap_witness :
    (([⟨⟨0, 0, 10, 10⟩, 9, 0⟩, ⟨⟨0, 0, 10, 10⟩, 8, 0⟩] : List Detection).Nodup
      ∧ List.Perm [⟨⟨0, 0, 10, 10⟩, 9, 0⟩, ⟨⟨0, 0, 10, 10⟩, 8, 0⟩]
          ([⟨⟨0, 0, 10, 10⟩, 9, 0⟩, ⟨⟨0, 0, 10, 10⟩, 8, 0⟩] : List Detection)
      ∧ SortedDesc [⟨⟨0, 0, 10, 10⟩, 9, 0⟩, ⟨⟨0, 0, 10, 10⟩, 8, 0⟩])
    ∧ ((∀ (l1 l2 : List Detection) (d : Detection),
          ([⟨⟨0, 0, 10, 10⟩, 9, 0⟩, ⟨⟨0, 0, 10, 10⟩, 8, 0⟩] : List Detection)
            = l1 ++ d :: l2 →
          (d ∈ nmsFold (2) [⟨⟨0, 0, 10, 10⟩, 9, 0⟩, ⟨⟨0, 0, 10, 10⟩, 8, 0⟩] ↔
            ∀ k ∈ nmsFold (2) l1, k.class_id = d.class_id → IOU k.bbox d.bbox ≤ 2))
        ∧ ((∀ a ∈ ([⟨⟨0, 0, 10, 10⟩, 9, 0⟩, ⟨⟨0, 0, 10, 10⟩, 8, 0⟩] : List Detection),
              ∀ b ∈ ([⟨⟨0, 0, 10, 10⟩, 9, 0⟩, ⟨⟨0, 0, 10, 10⟩, 8, 0⟩] : List Detection),
                a ≠ b → a.class_id ≠ b.class_id) →
            nmsFold (2) [⟨⟨0, 0, 10, 10⟩, 9, 0⟩, ⟨⟨0, 0, 10, 10⟩, 8, 0⟩]
              = [⟨⟨0, 0, 10, 10⟩, 9, 0⟩, ⟨⟨0, 0, 10, 10⟩, 8, 0⟩])) :=
  ⟨⟨by decide, List.Perm.refl _, by decide⟩,
   C1_nms_keeps_iff_no_same_class_overlap (2)
     [⟨⟨0, 0, 10, 10⟩, 9, 0⟩, ⟨⟨0, 0, 10, 10⟩, 8, 0⟩]
     [⟨⟨0, 0, 10, 10⟩, 9, 0⟩, ⟨⟨0, 0, 10, 10⟩, 8, 0⟩]
     (by decide) (List.Perm.refl _) (by decide)⟩

/-- C8 counterexample: two equal-confidence candidates in input order
`[a, b]` admit the comparator-consistent `std::sort` outcome `[b, a]`
(the comparator `confidence >` cannot distinguish them, and `std::sort`
is not stable), under which neither the iteration order deciding
suppression nor the NMS output preserves the input's relative order. -/
theorem C8_tiebreak_counterexample :
    (([⟨⟨0, 0, 10, 10⟩, 2, 0⟩, ⟨⟨20, 0, 10, 10⟩, 2, 1⟩] : List Detection).Nodup
      ∧ List.Perm [⟨⟨20, 0, 10, 10⟩, 2, 1⟩, ⟨⟨0, 0, 10, 10⟩, 2, 0⟩]
          ([⟨⟨0, 0, 10, 10⟩, 2, 0⟩, ⟨⟨20, 0, 10, 10⟩, 2, 1⟩] : List Detection)
      ∧ SortedDesc [⟨⟨20, 0, 10, 10⟩, 2, 1⟩, ⟨⟨0, 0, 10, 10⟩, 2, 0⟩])
    ∧ ¬ PreservesTies [⟨⟨0, 0, 10, 10⟩, 2, 0⟩, ⟨⟨20, 0, 10, 10⟩, 2, 1⟩]
        [⟨⟨20, 0, 10, 10⟩, 2, 1⟩, ⟨⟨0, 0, 10, 10⟩, 2, 0⟩]
    ∧ ¬ PreservesTies [⟨⟨0, 0, 10, 10⟩, 2, 0⟩, ⟨⟨20, 0, 10, 10⟩, 2, 1⟩]
        (nmsFold (0) [⟨⟨20, 0, 10, 10⟩, 2, 1⟩, ⟨⟨0, 0, 10, 10⟩, 2, 0⟩]) := by
  refine ⟨⟨by decide, ?_, by decide⟩, by decide, by decide⟩
  decide

/-- Two comparator-sorted permutations of a list with pairwise distinct
confidences coincide. -/
theorem sortedDesc_perm_unique :
    ∀ l1 l2 : List Detection, l1.Perm l2 → SortedDesc l1 → SortedDesc l2 →
      (∀ a ∈ l1, ∀ b ∈ l1, a ≠ b → a.confidence ≠ b.confidence) → l1 = l2 := by
  intro l1
  induction l1 with
  | nil => intro l2 hperm _ _ _; exact (hperm.nil_eq).symm ▸ rfl
  | cons a t1 ih =>
    intro l2 hperm hs1 hs2 hdist
    cases l2 with
    | nil => exact absurd hperm.symm.nil_eq (by simp)
    | cons b t2 =>
      by_cases hab : a = b
      · subst hab
        have htperm := hperm.cons_inv
        have := ih t2 htperm (List.pairwise_cons.mp hs1).2 (List.pairwise_cons.mp hs2).2
          (fun x hx y hy => hdist x (List.mem_cons_of_mem _ hx) y (List.mem_cons_of_mem _ hy))
        rw [this]
      · exfalso
        have hbmem : b ∈ a :: t1 := hperm.mem_iff.mpr (List.mem_cons_self b t2)
        have hbt1 : b ∈ t1 := by
          rcases List.mem_cons.mp hbmem with h | h
          · exact absurd h.symm hab
          · exact h
        have hamem : a ∈ b :: t2 := hperm.mem_iff.mp (List.mem_cons_self a t1)
        have hat2 : a ∈ t2 := by
          rcases List.mem_cons.mp hamem with h | h
          · exact absurd h hab
          · exact h
        have h1 : b.confidence ≤ a.confidence := (List.pairwise_cons.mp hs1).1 b hbt1
        have h2 : a.confidence ≤ b.confidence := (List.pairwise_cons.mp hs2).1 a hat2
        exact hdist a (List.mem_cons_self a t1) b (List.mem_cons_of_mem _ hbt1) hab
          (le_antisymm h2 h1)

/-- C8 (amended): `std::sort` is not stable, so among equal-confidence
candidates the code guarantees no particular order — only that the
iteration order is some descending-confidence permutation of the
candidates.  When all confidences are pairwise distinct the permutation,
and hence the NMS iteration order and output, are uniquely determined. -/
theorem C8_tiebreak_amended (thr : ℚ) (input s1 s2 : List Detection)
    (hdist : ∀ a ∈ input, ∀ b ∈ input, a ≠ b → a.confidence ≠ b.confidence)
    (h1 : s1.Perm input) (hs1 : SortedDesc s1)
    (h2 : s2.Perm input) (hs2 : SortedDesc s2) :
    s1 = s2 ∧ nmsFold thr s1 = nmsFold thr s2 := by
  have heq : s1 = s2 := by
    apply sortedDesc_perm_unique s1 s2 (h1.trans h2.symm) hs1 hs2
    intro a ha b hb
    exact hdist a (h1.mem_iff.mp ha) b (h1.mem_iff.mp hb)
  exact ⟨heq, by rw [heq]⟩

/-- Witness for C8 (amended): on distinct confidences the sorted order
is forced. -/
theorem C8_tiebreak_amended_witness :
    ((∀ a ∈ ([⟨⟨0, 0, 10, 10⟩, 9, 0⟩, ⟨⟨0, 0, 10, 10⟩, 8, 0⟩] : List Detection),
        ∀ b ∈ ([⟨⟨0, 0, 10, 10⟩, 9, 0⟩, ⟨⟨0, 0, 10, 10⟩, 8, 0⟩] : List Detection),
          a ≠ b → a.confidence ≠ b.confidence)
      ∧ SortedDesc [⟨⟨0, 0, 10, 10⟩, 9, 0⟩, ⟨⟨0, 0, 10, 10⟩, 8, 0⟩])
    ∧ ([⟨⟨0, 0, 10, 10⟩, 9, 0⟩, ⟨⟨0, 0, 10, 10⟩, 8, 0⟩] : List Detection)
        = [⟨⟨0, 0, 10, 10⟩, 9, 0⟩, ⟨⟨0, 0, 10, 10⟩, 8, 0⟩]
      ∧ nmsFold (2) [⟨⟨0, 0, 10, 10⟩, 9, 0⟩, ⟨⟨0, 0, 10, 10⟩, 8, 0⟩]
        = nmsFold (2) [⟨⟨0, 0, 10, 10⟩, 9, 0⟩, ⟨⟨0, 0, 10, 10⟩, 8, 0⟩] :=
  ⟨⟨by decide, by decide⟩,
   C8_tiebreak_amended (2)
     [⟨⟨0, 0, 10, 10⟩, 9, 0⟩, ⟨⟨0, 0, 10, 10⟩, 8, 0⟩]
     [⟨⟨0, 0, 10, 10⟩, 9, 0⟩, ⟨⟨0, 0, 10, 10⟩, 8, 0⟩]
     [⟨⟨0, 0, 10, 10⟩, 9, 0⟩, ⟨⟨0, 0, 10, 10⟩, 8, 0⟩]
     (by decide) (List.Perm.refl _) (by decide) (List.Perm.refl _) (by decide)⟩

/-- Evaluating a run of consecutive stores `out[base + w] = v w`,
`w = 0 .. n-1`: inside the written window the last (unique) store wins,
outside it the buffer is untouched. -/
theorem foldl_range_updOut (base : ℕ) (v : ℕ → ℚ) :
    ∀ (n : ℕ) (out : ℕ → ℚ) (idx : ℕ),
      (List.range n).foldl (fun o w => updOut o (base + w) (v w)) out idx
      = if base ≤ idx ∧ idx < base + n then v (idx - base) else out idx := by
  intro n
  induction n with
  | zero =>
    intro out idx
    rw [List.range_zero, List.foldl_nil, if_neg (by omega)]
  | succ n ih =>
    intro out idx
    rw [List.range_succ, List.foldl_append, List.foldl_cons, List.foldl_nil]
    simp only [updOut]
    by_cases h : idx = base + n
    · rw [if_pos h, if_pos (by omega)]
      congr 1
      omega
    · rw [if_neg h, ih]
      by_cases h2 : base ≤ idx ∧ idx < base + n
      · rw [if_pos h2, if_pos (by omega)]
      · rw [if_neg h2, if_neg (by omega)]

/-- Row/column split of a flat in-plane offset. -/
theorem rowcol_div_mod (h w W : ℕ) (hw : w < W) :
    (h * W + w) / W = h ∧ (h * W + w) % W = w := by
  have hW : 0 < W := by omega
  constructor
  · rw [Nat.add_comm, Nat.add_mul_div_right w h hW, Nat.div_eq_of_lt hw, Nat.zero_add]
  · rw [Nat.add_comm, Nat.add_mul_mod_self_right, Nat.mod_eq_of_lt hw]

/-- Evaluating the row-major double loop that stores
`out[base + h*W + w] = v2 h w` for `h < m`, `w < W`: inside the plane
window the store for the row/column decomposition wins, outside it the
buffer is untouched. -/
theorem foldl_plane_updOut (W base : ℕ) (v2 : ℕ → ℕ → ℚ) :
    ∀ (m : ℕ) (out : ℕ → ℚ) (idx : ℕ),
      (List.range m).foldl
        (fun o h => (List.range W).foldl
          (fun o2 w => updOut o2 (base + h * W + w) (v2 h w)) o) out idx
      = if base ≤ idx ∧ idx < base + m * W
        then v2 ((idx - base) / W) ((idx - base) % W) else out idx := by
  intro m
  induction m with
  | zero =>
    intro out idx
    rw [List.range_zero, List.foldl_nil, if_neg (by simp only [Nat.zero_mul]; omega)]
  | succ m ih =>
    intro out idx
    rw [List.range_succ, List.foldl_append, List.foldl_cons, List.foldl_nil,
      foldl_range_updOut (base + m * W) (v2 m) W _ idx, ih]
    simp only [Nat.succ_mul]
    by_cases hin : base + m * W ≤ idx ∧ idx < base + m * W + W
    · rw [if_pos hin, if_pos (by omega)]
      obtain ⟨r, hrW, hreq⟩ : ∃ r, r < W ∧ idx - base = m * W + r :=
        ⟨idx - base - m * W, by omega, by omega⟩
      rw [show idx - (base + m * W) = r from by omega, hreq,
        (rowcol_div_mod m r W hrW).1, (rowcol_div_mod m r W hrW).2]
    · rw [if_neg hin]
      by_cases hmid : base ≤ idx ∧ idx < base + m * W
      · rw [if_pos hmid, if_pos (by omega)]
      · rw [if_neg hmid, if_neg (by omega)]

/-- `PreprocessImageStandard` write characterization: the float tensor
entry at `c*H*W + h*W + w` holds channel `c` of the interleaved **BGR**
pixel `(h, w)` scaled by 1/255 — plane 0 is Blue, plane 1 Green, plane 2
Red; the loops perform no channel swap. -/
theorem preprocessImageStandard_get (resized : ℕ → ℕ) (W H : ℕ) (out0 : ℕ → ℚ)
    (c h w : ℕ) (hc : c < 3) (hh : h < H) (hw : w < W) :
    preprocessImageStandard resized W H out0 (c * H * W + h * W + w)
      = (resized (h * W * 3 + w * 3 + c) : ℚ) / 255 := by
  have hWpos : 0 < W := by omega
  have hrow : h * W + w < H * W := by
    have h1 : h * W + w < (h + 1) * W := by
      simp only [Nat.succ_mul]
      omega
    have h2 : (h + 1) * W ≤ H * W := Nat.mul_le_mul_right W hh
    omega
  have hsplit := rowcol_div_mod h w W hw
  rw [preprocessImageStandard,
    show (List.range 3) = [0, 1, 2] from rfl,
    List.foldl_cons, List.foldl_cons, List.foldl_cons, List.foldl_nil,
    foldl_plane_updOut, foldl_plane_updOut, foldl_plane_updOut]
  have e0 : (0 : ℕ) * H * W = 0 := by ring
  have e1 : (1 : ℕ) * H * W = H * W := by ring
  have e2 : (2 : ℕ) * H * W = 2 * (H * W) := by ring
  rw [e0, e1, e2]
  interval_cases c
  · rw [e0, if_neg (by omega), if_neg (by omega), if_pos (by omega)]
    simp only [Nat.zero_add, Nat.sub_zero, hsplit.1, hsplit.2]
  · rw [e1, if_neg (by omega), if_pos (by omega)]
    rw [show H * W + h * W + w - H * W = h * W + w from by omega, hsplit.1, hsplit.2]
  · rw [e2, if_pos (by omega)]
    rw [show 2 * (H * W) + h * W + w - 2 * (H * W) = h * W + w from by omega,
      hsplit.1, hsplit.2]

/-- When pixel count `p` and loop index `i` are multiples of 4, the NEON
vector branch only stores at plane offsets `c*p + i`, all of which are
multiples of 4; any index that is not a multiple of 4 is untouched. -/
theorem neonVectorBody_untouched (resized : ℕ → ℕ) (p i idx : ℕ)
    (hidx : idx % 4 ≠ 0) (hp : p % 4 = 0) (hi : i % 4 = 0) :
    ∀ out : ℕ → ℚ, neonVectorBody resized p i out idx = out idx := by
  have hk0 : idx ≠ 0 * p + i := by omega
  have hk1 : idx ≠ 1 * p + i := by omega
  have hk2 : idx ≠ 2 * p + i := by omega
  intro out
  rw [neonVectorBody]
  by_cases hg : (i + 3) * 3 < p * 3
  · rw [if_pos hg]
    by_cases hip : i < p
    · rw [if_pos hip]
      simp only [updOut, if_neg hk2, if_neg hk1, if_neg hk0]
    · rw [if_neg hip]
  · rw [if_neg hg]

/-- The inner 4-stride pixel loop of `PreprocessPipelineNEON` never
touches an output index that is not a multiple of 4, as long as the loop
bound and start are multiples of 4 within `p`: every iteration then takes
the vector branch, which writes only pixel `i` of each plane. -/
theorem neonInner_untouched (resized : ℕ → ℕ) (p e idx : ℕ)
    (hidx : idx % 4 ≠ 0) (hp : p % 4 = 0) (he : e % 4 = 0) (hep : e ≤ p) :
    ∀ (n i : ℕ), e - i ≤ n → i % 4 = 0 →
      ∀ out : ℕ → ℚ, neonInner resized p e i out idx = out idx := by
  intro n
  induction n with
  | zero =>
    intro i hle hi out
    rw [neonInner, if_neg (by omega)]
  | succ n ih =>
    intro i hle hi out
    rw [neonInner]
    by_cases hlt : i < e
    · rw [if_pos hlt]
      have h4 : 4 ≤ e - i := by omega
      have hrem : min 4 (e - i) = 4 := by omega
      have hi3 : i + 3 < p := by omega
      simp only [hrem]
      rw [if_pos ⟨trivial, hi3⟩]
      rw [ih (i + 4) (by omega) (by omega)]
      exact neonVectorBody_untouched resized p i idx hidx hp hi out
    · rw [if_neg hlt]

/-- The outer 64-stride block loop of `PreprocessPipelineNEON` preserves
every output index that is not a multiple of 4 whenever `p % 4 = 0`. -/
theorem neonBlocks_untouched (resized : ℕ → ℕ) (p idx : ℕ)
    (hidx : idx % 4 ≠ 0) (hp : p % 4 = 0) :
    ∀ (n block : ℕ), p - block ≤ n → block % 4 = 0 →
      ∀ out : ℕ → ℚ, neonBlocks resized p block out idx = out idx := by
  intro n
  induction n with
  | zero =>
    intro block hle hb out
    rw [neonBlocks, if_neg (by omega)]
  | succ n ih =>
    intro block hle hb out
    rw [neonBlocks]
    by_cases hlt : block < p
    · rw [if_pos hlt]
      have he4 : (min (block + 64) p) % 4 = 0 := by
        rcases le_total (block + 64) p with hcmp | hcmp
        · rw [min_eq_left hcmp]; omega
        · rw [min_eq_right hcmp]; omega
      rw [ih (block + 64) (by omega) (by omega)]
      exact neonInner_untouched resized p (min (block + 64) p) idx hidx hp he4
        (Nat.min_le_right _ _) (min (block + 64) p - block) block le_rfl hb out
    · rw [if_neg hlt]

/-- `PreprocessPipelineNEON` leaves every tensor entry whose index is not
a multiple of 4 at its initial value whenever the pixel count is a
multiple of 4 (as with any standard model input such as 640×640): the
4-stride loop always takes the vector branch, which writes only the
first pixel of each 4-block. -/
theorem preprocessPipelineNEON_untouched (resized : ℕ → ℕ) (W H : ℕ)
    (out0 : ℕ → ℚ) (idx : ℕ) (hidx : idx % 4 ≠ 0) (hp : (W * H) % 4 = 0) :
    preprocessPipelineNEON resized W H out0 idx = out0 idx := by
  rw [preprocessPipelineNEON]
  exact neonBlocks_untouched resized (W * H) idx hidx hp (W * H) 0 (by omega) rfl out0

/-- C2 at a concrete failing input: on a uniform white (255,255,255)
resized frame at the 640×640 model input size, with a zero-initialised
output tensor, the scalar path writes 1.0 at tensor index 1 (plane 0,
pixel 1) while the NEON pipeline never writes that entry at all (its
vector branch stores only every 4th pixel), leaving 0.0 — a per-pixel
difference of 1, far above the 1e-6 contract. -/
theorem C2_neon_scalar_divergence :
    preprocessImageStandard (fun _ => 255) 640 640 (fun _ => 0) 1 = 1
    ∧ preprocessPipelineNEON (fun _ => 255) 640 640 (fun _ => 0) 1 = 0
    ∧ ¬(|preprocessImageStandard (fun _ => 255) 640 640 (fun _ => 0) 1
          - preprocessPipelineNEON (fun _ => 255) 640 640 (fun _ => 0) 1|
        ≤ 1 / 1000000) := by
  have hstd := preprocessImageStandard_get (fun _ => 255) 640 640 (fun _ => 0) 0 0 1
    (by omega) (by omega) (by omega)
  have hneon := preprocessPipelineNEON_untouched (fun _ => 255) 640 640 (fun _ => 0) 1
    (by omega) (by norm_num)
  norm_num at hstd hneon
  refine ⟨hstd, hneon, ?_⟩
  rw [hstd, hneon]
  norm_num

/-- C3 at a concrete failing input: for the resized pixel (0,0) with BGR
bytes (255, 7, 9) at the 640×640 input size, the scalar preprocessor
stores Blue/255 in plane 0, Green/255 in plane 1 and Red/255 in plane 2
— planar B,G,R, not the claimed R,G,B: plane 0 holds 255/255, not the
Red value 9/255. -/
theorem C3_standard_plane0_is_blue_not_red :
    preprocessImageStandard
        (fun k => if k = 0 then 255 else if k = 1 then 7 else if k = 2 then 9 else 0)
        640 640 (fun _ => 0) 0 = 255 / 255
    ∧ preprocessImageStandard
        (fun k => if k = 0 then 255 else if k = 1 then 7 else if k = 2 then 9 else 0)
        640 640 (fun _ => 0) 409600 = 7 / 255
    ∧ preprocessImageStandard
        (fun k => if k = 0 then 255 else if k = 1 then 7 else if k = 2 then 9 else 0)
        640 640 (fun _ => 0) 819200 = 9 / 255
    ∧ ((255 : ℚ) / 255 ≠ 9 / 255) := by
  have h0 := preprocessImageStandard_get
    (fun k => if k = 0 then 255 else if k = 1 then 7 else if k = 2 then 9 else 0)
    640 640 (fun _ => 0) 0 0 0 (by omega) (by omega) (by omega)
  have h1 := preprocessImageStandard_get
    (fun k => if k = 0 then 255 else if k = 1 then 7 else if k = 2 then 9 else 0)
    640 640 (fun _ => 0) 1 0 0 (by omega) (by omega) (by omega)
  have h2 := preprocessImageStandard_get
    (fun k => if k = 0 then 255 else if k = 1 then 7 else if k = 2 then 9 else 0)
    640 640 (fun _ => 0) 2 0 0 (by omega) (by omega) (by omega)
  norm_num at h0 h1 h2
  exact ⟨by rw [h0]; norm_num, by rw [h1], by rw [h2]; norm_num, by norm_num⟩

end PiTrac
